import Mathlib

/-!
Verification of the coarse-to-fine image-alignment core in
`inc/imagealign/align_base.h` (class `AlignBase`).

The C++ core is generic over a derived algorithm `D` (supplying
`prepareImpl`, `alignImpl`, `applyStep`) and a warp type `W` (supplying
`scaled`).  We embed it shallowly: the scalar type is `ℚ`, the derived
algorithm and the warp capabilities become a `Policy` record, and the
engine state (`_levels`, `_level`, `_error`) becomes `EngState`.

The C++ code stores the "no prior error at this level" sentinel as
`std::numeric_limits<ScalarType>::max()`; since `ℚ` has no maximum we
represent the error register as `Option ℚ`, `none` standing for the
sentinel.  The comparison `lastError() - newError >= 0` is `True`
whenever the register holds the sentinel, which is exactly the
behaviour of comparing against the maximum representable scalar for any
finite `newError`.  Likewise the unguarded division
`s.sumErrors / ScalarType(s.numConstraints)` is embedded as a guarded
division returning `none` when the divisor is zero.
-/

namespace ImageAlign

/-- `SingleStepResult<W>` from `align_base.h`: a candidate parameter delta,
the summed per-constraint error, and the number of contributing
constraints (`int` in C++, hence `ℤ`). -/
structure SingleStepResult (P : Type) where
  delta : P
  sumErrors : ℚ
  numConstraints : ℤ
deriving Repr, DecidableEq

/-- The capabilities the engine requires from its collaborators: the
derived algorithm `D` (`alignImpl`, `applyStep`), the warp type `W`
(`scaled`), and `cv::norm` on parameter vectors.  `alignImpl` may read
the active pyramid level (through the engine accessors in C++), so it
receives the level index explicitly here. -/
structure Policy (W P : Type) where
  alignImpl : ℕ → W → SingleStepResult P
  applyStep : W → SingleStepResult P → W
  scaled : ℤ → W → W
  norm : P → ℚ

/-- The mutable engine state: `_levels`, `_level`, `_error`.
`_error = none` models the `std::numeric_limits<ScalarType>::max()`
sentinel. -/
structure EngState where
  levels : ℕ
  level : ℕ
  error : Option ℚ
deriving Repr, DecidableEq

/-- `AlignBase::setLevel`: clamp the requested level to
`[0, numLevels()-1]`, store it, and reset the error register to the
sentinel. -/
def setLevel (st : EngState) (level : ℤ) : EngState :=
  { st with
    level := (max 0 (min level ((st.levels : ℤ) - 1))).toNat
    error := none }

/-- Guarded model of the C++ division
`s.sumErrors / ScalarType(s.numConstraints)`: `none` is the error
branch, reached exactly when the divisor is zero. -/
def divGuard (a : ℚ) (b : ℤ) : Option ℚ :=
  if b = 0 then none else some (a / (b : ℚ))

/-- `errorChange = lastError() - newError >= 0` of the C++ code.  A
sentinel (`none`) last error compares as the maximum scalar, so the
test holds for every proper new error; a `none` new error corresponds
to the guard-discarded division and never satisfies the test (the
surrounding conjunction has already failed on `numConstraints > 0`). -/
def errChangeNonneg : Option ℚ → Option ℚ → Bool
  | _, none => false
  | none, some _ => true
  | some last, some ne => decide (ne ≤ last)

/-- One execution of the body of the inner iteration loop of
`AlignBase::align` at pyramid level `lev`, iteration index `iter`.
Returns the updated engine state, working warp and step trace, together
with `true` when the step was accepted (loop continues) and `false`
when it was rejected (`break` in C++).  `useSteps` models whether the
optional `steps` container was supplied. -/
def alignStep (pol : Policy W P) (eps : ℚ) (useSteps : Bool) (lev iter : ℕ)
    (st : EngState) (ws : W) (tr : List W) : EngState × W × List W × Bool :=
  let s := pol.alignImpl lev ws
  let newError := divGuard s.sumErrors s.numConstraints
  if decide (0 < s.numConstraints) && errChangeNonneg st.error newError
      && (decide (iter = 0) || decide (eps ≤ pol.norm s.delta)) then
    let ws2 := pol.applyStep ws s
    let tr2 := if useSteps then tr ++ [pol.scaled (lev : ℤ) ws2] else tr
    ({ st with error := newError }, ws2, tr2, true)
  else
    (st, ws, tr, false)

/-- The inner `for (int iter = 0; iter < iterationsPerLevel; ++iter)`
loop of `AlignBase::align`, by recursion on the remaining iteration
budget.  The final `ℕ` is ghost instrumentation: the number of loop-body
executions (= invocations of `alignImpl`) that took place; it does not
feed back into the computation. -/
def alignLoop (pol : Policy W P) (eps : ℚ) (useSteps : Bool) (lev : ℕ) :
    ℕ → ℕ → EngState → W → List W → EngState × W × List W × ℕ
  | 0, _, st, ws, tr => (st, ws, tr, 0)
  | fuel + 1, iter, st, ws, tr =>
    match alignStep pol eps useSteps lev iter st ws tr with
    | (st2, ws2, tr2, true) =>
      let r := alignLoop pol eps useSteps lev fuel (iter + 1) st2 ws2 tr2
      (r.1, r.2.1, r.2.2.1, r.2.2.2 + 1)
    | (st2, ws2, tr2, false) => (st2, ws2, tr2, 1)

/-- Processing of one pyramid level inside `AlignBase::align`:
`setLevel(lev)`, then `ws = ws.scaled(1)`, then the inner iteration
loop with the per-level budget `iters`. -/
def alignLevel (pol : Policy W P) (eps : ℚ) (useSteps : Bool) (iters lev : ℕ)
    (st : EngState) (ws : W) (tr : List W) : EngState × W × List W × ℕ :=
  let st1 := setLevel st (lev : ℤ)
  let ws1 := pol.scaled 1 ws
  alignLoop pol eps useSteps lev iters 0 st1 ws1 tr

/-- The outer `for (int lev = numLevels() - 1; lev >= 0; --lev)` loop of
`AlignBase::align`, folded over the list of level indices.  The final
`List ℕ` is ghost instrumentation collecting, per visited level, the
number of step attempts made there. -/
def alignLevels (pol : Policy W P) (eps : ℚ) (useSteps : Bool) (iters : ℕ) :
    List ℕ → EngState → W → List W → EngState × W × List W × List ℕ
  | [], st, ws, tr => (st, ws, tr, [])
  | lev :: rest, st, ws, tr =>
    let r := alignLevel pol eps useSteps iters lev st ws tr
    let r2 := alignLevels pol eps useSteps iters rest r.1 r.2.1 r.2.2.1
    (r2.1, r2.2.1, r2.2.2.1, r.2.2.2 :: r2.2.2.2)

/-- `AlignBase::align(w, maxIterations, eps, steps)`.
`iterationsPerLevel = maxIterations / numLevels()` is C++ `int`
division, i.e. truncation towards zero (`Int.tdiv`); a non-positive
budget makes the inner loop run zero times, which `Int.toNat` captures.
The working warp starts at `w.scaled(-numLevels())` and the levels are
visited from `numLevels()-1` down to `0`.  `tr0` is the initial content
of the caller-supplied `steps` container. -/
def align (pol : Policy W P) (st : EngState) (w : W) (maxIterations : ℤ)
    (eps : ℚ) (useSteps : Bool) (tr0 : List W) : EngState × W × List W × List ℕ :=
  let iters := (Int.tdiv maxIterations (st.levels : ℤ)).toNat
  alignLevels pol eps useSteps iters ((List.range st.levels).reverse) st
    (pol.scaled (-(st.levels : ℤ)) w) tr0

/-- First overload of `AlignBase::prepare`.  The external collaborator
`ImagePyramid::maxLevelsForImageSize` (declared in `image_pyramid.h`,
outside this core) is abstracted by its two values `maxLevelsTmpl` and
`maxLevelsTarget` at the template and target image sizes.  The engine
computes `_levels = max(1, min(pyramidLevels, min(maxLevelsTmpl,
maxLevelsTarget)))`, builds the two pyramids, and calls `setLevel(0)`;
`prepareImpl` of the derived class does not touch the engine state. -/
def prepare1 (maxLevelsTmpl maxLevelsTarget : ℕ) (pyramidLevels : ℤ) : EngState :=
  let maxLevels : ℤ := min (maxLevelsTmpl : ℤ) (maxLevelsTarget : ℤ)
  let levels := (max 1 (min pyramidLevels maxLevels)).toNat
  setLevel { levels := levels, level := 0, error := none } 0

/-- Modelled from the spec: the external `ImagePyramid` collaborator
(declared in `image_pyramid.h`, outside this core) is an ordered
sequence of images, index `0` the finest. -/
structure ImagePyramid (Img : Type) where
  imgs : List Img
deriving Repr, DecidableEq

/-- Modelled from the spec: `ImagePyramid::numLevels`. -/
def ImagePyramid.numLevels (p : ImagePyramid Img) : ℕ := p.imgs.length

/-- Modelled from the spec: `ImagePyramid::slice(start, count)` takes
the `count` levels beginning at `start` (for `prepare` always the
prefix `0 .. count-1`). -/
def ImagePyramid.slice (p : ImagePyramid Img) (start count : ℕ) : ImagePyramid Img :=
  ⟨(p.imgs.drop start).take count⟩

/-- Modelled from the spec: indexing a pyramid by level. -/
def ImagePyramid.getImg (p : ImagePyramid Img) (i : ℕ) : Option Img :=
  p.imgs[i]?

/-- Second overload of `AlignBase::prepare`, taking a pre-built target
pyramid.  `_levels = max(1, min(pyramidLevels, min(maxLevelsTmpl,
target.numLevels())))`; the target pyramid is sliced down to `_levels`
when it has more levels than needed, otherwise reused as is.  Returns
the engine state after `setLevel(0)` together with the target pyramid
the engine holds. -/
def prepare2 (maxLevelsTmpl : ℕ) (target : ImagePyramid Img)
    (pyramidLevels : ℤ) : EngState × ImagePyramid Img :=
  let maxLevels : ℤ := min (maxLevelsTmpl : ℤ) (target.numLevels : ℤ)
  let levels := (max 1 (min pyramidLevels maxLevels)).toNat
  let tp := if target.numLevels > levels then target.slice 0 levels else target
  (setLevel { levels := levels, level := 0, error := none } 0, tp)

/-- `AlignBase::isInImage(p, imgSize, r)`: apply the half-pixel offset,
truncate with `std::floor`, and require at least `r` pixels of margin
on every side.  Point coordinates are `ℚ`, the image size is
`width × height`. -/
def isInImage (p : ℚ × ℚ) (width height : ℤ) (r : ℤ) : Bool :=
  let x : ℤ := ⌊p.1 - (1 : ℚ) / 2⌋
  let y : ℤ := ⌊p.2 - (1 : ℚ) / 2⌋
  decide (x ≥ r) && decide (y ≥ r) && decide (x < width - r) && decide (y < height - r)

end ImageAlign

namespace ImageAlign

variable {W P : Type}

/-! ### Basic lemmas about the step body -/

lemma divGuard_eq_none_iff (a : ℚ) (b : ℤ) : divGuard a b = none ↔ b = 0 := by
  unfold divGuard; split <;> simp_all

lemma divGuard_of_pos (a : ℚ) {b : ℤ} (h : 0 < b) :
    divGuard a b = some (a / (b : ℚ)) := by
  unfold divGuard; simp [h.ne']

lemma errChangeNonneg_some_iff (e : Option ℚ) (x : ℚ) :
    errChangeNonneg e (some x) = true ↔ ∀ y, e = some y → x ≤ y := by
  cases e <;> simp [errChangeNonneg]

lemma alignStep_eq (pol : Policy W P) (eps : ℚ) (us : Bool) (lev iter : ℕ)
    (st : EngState) (ws : W) (tr : List W) :
    alignStep pol eps us lev iter st ws tr =
      if decide (0 < (pol.alignImpl lev ws).numConstraints) &&
          errChangeNonneg st.error
            (divGuard (pol.alignImpl lev ws).sumErrors (pol.alignImpl lev ws).numConstraints) &&
          (decide (iter = 0) || decide (eps ≤ pol.norm (pol.alignImpl lev ws).delta)) then
        ({ st with error := (divGuard (pol.alignImpl lev ws).sumErrors
              (pol.alignImpl lev ws).numConstraints) },
         pol.applyStep ws (pol.alignImpl lev ws),
         if us then tr ++ [pol.scaled (lev : ℤ) (pol.applyStep ws (pol.alignImpl lev ws))] else tr,
         true)
      else (st, ws, tr, false) := rfl

lemma alignStep_cases (pol : Policy W P) (eps : ℚ) (us : Bool) (lev iter : ℕ)
    (st : EngState) (ws : W) (tr : List W) :
    (alignStep pol eps us lev iter st ws tr).2.2.2 = true ∨
    alignStep pol eps us lev iter st ws tr = (st, ws, tr, false) := by
  rw [alignStep_eq]; split
  · exact Or.inl rfl
  · exact Or.inr rfl

lemma alignStep_levels (pol : Policy W P) (eps : ℚ) (us : Bool) (lev iter : ℕ)
    (st : EngState) (ws : W) (tr : List W) :
    (alignStep pol eps us lev iter st ws tr).1.levels = st.levels ∧
    (alignStep pol eps us lev iter st ws tr).1.level = st.level := by
  rw [alignStep_eq]; split <;> exact ⟨rfl, rfl⟩

lemma alignLoop_succ_of_rejected (pol : Policy W P) {eps : ℚ} {us : Bool}
    {lev iter : ℕ} {st : EngState} {ws : W} {tr : List W} (fuel : ℕ)
    (h : alignStep pol eps us lev iter st ws tr = (st, ws, tr, false)) :
    alignLoop pol eps us lev (fuel + 1) iter st ws tr = (st, ws, tr, 1) := by
  simp [alignLoop, h]

lemma alignLoop_succ_of_accepted (pol : Policy W P) {eps : ℚ} {us : Bool}
    {lev iter : ℕ} {st st2 : EngState} {ws ws2 : W} {tr tr2 : List W} (fuel : ℕ)
    (h : alignStep pol eps us lev iter st ws tr = (st2, ws2, tr2, true)) :
    alignLoop pol eps us lev (fuel + 1) iter st ws tr =
      ((alignLoop pol eps us lev fuel (iter + 1) st2 ws2 tr2).1,
       (alignLoop pol eps us lev fuel (iter + 1) st2 ws2 tr2).2.1,
       (alignLoop pol eps us lev fuel (iter + 1) st2 ws2 tr2).2.2.1,
       (alignLoop pol eps us lev fuel (iter + 1) st2 ws2 tr2).2.2.2 + 1) := by
  simp [alignLoop, h]

lemma alignLoop_pres (pol : Policy W P) (eps : ℚ) (us : Bool) (lev : ℕ) :
    ∀ (fuel iter : ℕ) (st : EngState) (ws : W) (tr : List W),
    (alignLoop pol eps us lev fuel iter st ws tr).1.levels = st.levels ∧
    (alignLoop pol eps us lev fuel iter st ws tr).1.level = st.level := by
  intro fuel
  induction fuel with
  | zero => intro iter st ws tr; simp [alignLoop]
  | succ n ih =>
    intro iter st ws tr
    rcases alignStep_cases pol eps us lev iter st ws tr with h | h
    · rcases hs : alignStep pol eps us lev iter st ws tr with ⟨st2, ws2, tr2, d⟩
      have hlev := alignStep_levels pol eps us lev iter st ws tr
      rw [hs] at hlev h
      simp only at h
      subst h
      rw [alignLoop_succ_of_accepted pol n hs]
      exact ⟨(ih (iter + 1) st2 ws2 tr2).1.trans hlev.1,
             (ih (iter + 1) st2 ws2 tr2).2.trans hlev.2⟩
    · rw [alignLoop_succ_of_rejected pol n h]
      exact ⟨rfl, rfl⟩

lemma alignLoop_count_le (pol : Policy W P) (eps : ℚ) (us : Bool) (lev : ℕ) :
    ∀ (fuel iter : ℕ) (st : EngState) (ws : W) (tr : List W),
    (alignLoop pol eps us lev fuel iter st ws tr).2.2.2 ≤ fuel := by
  intro fuel
  induction fuel with
  | zero => intro iter st ws tr; simp [alignLoop]
  | succ n ih =>
    intro iter st ws tr
    rcases alignStep_cases pol eps us lev iter st ws tr with h | h
    · rcases hs : alignStep pol eps us lev iter st ws tr with ⟨st2, ws2, tr2, d⟩
      rw [hs] at h
      simp only at h
      subst h
      rw [alignLoop_succ_of_accepted pol n hs]
      have := ih (iter + 1) st2 ws2 tr2
      simp only
      omega
    · rw [alignLoop_succ_of_rejected pol n h]
      simp only
      omega

end ImageAlign

namespace ImageAlign

variable {W P : Type}

lemma alignLevel_count_le (pol : Policy W P) (eps : ℚ) (us : Bool)
    (iters lev : ℕ) (st : EngState) (ws : W) (tr : List W) :
    (alignLevel pol eps us iters lev st ws tr).2.2.2 ≤ iters :=
  alignLoop_count_le pol eps us lev iters 0 (setLevel st (lev : ℤ)) (pol.scaled 1 ws) tr

lemma alignLevel_pres (pol : Policy W P) (eps : ℚ) (us : Bool)
    (iters lev : ℕ) (st : EngState) (ws : W) (tr : List W) :
    (alignLevel pol eps us iters lev st ws tr).1.levels = st.levels ∧
    (alignLevel pol eps us iters lev st ws tr).1.level =
      (max 0 (min (lev : ℤ) ((st.levels : ℤ) - 1))).toNat :=
  alignLoop_pres pol eps us lev iters 0 (setLevel st (lev : ℤ)) (pol.scaled 1 ws) tr

lemma alignLevels_cons (pol : Policy W P) (eps : ℚ) (us : Bool) (iters lev : ℕ)
    (rest : List ℕ) (st : EngState) (ws : W) (tr : List W) :
    alignLevels pol eps us iters (lev :: rest) st ws tr =
      ((alignLevels pol eps us iters rest
          (alignLevel pol eps us iters lev st ws tr).1
          (alignLevel pol eps us iters lev st ws tr).2.1
          (alignLevel pol eps us iters lev st ws tr).2.2.1).1,
       (alignLevels pol eps us iters rest
          (alignLevel pol eps us iters lev st ws tr).1
          (alignLevel pol eps us iters lev st ws tr).2.1
          (alignLevel pol eps us iters lev st ws tr).2.2.1).2.1,
       (alignLevels pol eps us iters rest
          (alignLevel pol eps us iters lev st ws tr).1
          (alignLevel pol eps us iters lev st ws tr).2.1
          (alignLevel pol eps us iters lev st ws tr).2.2.1).2.2.1,
       (alignLevel pol eps us iters lev st ws tr).2.2.2 ::
       (alignLevels pol eps us iters rest
          (alignLevel pol eps us iters lev st ws tr).1
          (alignLevel pol eps us iters lev st ws tr).2.1
          (alignLevel pol eps us iters lev st ws tr).2.2.1).2.2.2) := rfl

lemma alignLevels_counts (pol : Policy W P) (eps : ℚ) (us : Bool) (iters : ℕ) :
    ∀ (L : List ℕ) (st : EngState) (ws : W) (tr : List W),
    (alignLevels pol eps us iters L st ws tr).2.2.2.length = L.length ∧
    ∀ c ∈ (alignLevels pol eps us iters L st ws tr).2.2.2, c ≤ iters := by
  intro L
  induction L with
  | nil => intro st ws tr; simp [alignLevels]
  | cons lev rest ih =>
    intro st ws tr
    rw [alignLevels_cons]
    constructor
    · simp [(ih _ _ _).1]
    · intro c hc
      simp only [List.mem_cons] at hc
      rcases hc with h | h
      · subst h; exact alignLevel_count_le pol eps us iters lev st ws tr
      · exact (ih _ _ _).2 c h

lemma alignLevels_levels (pol : Policy W P) (eps : ℚ) (us : Bool) (iters : ℕ) :
    ∀ (L : List ℕ) (st : EngState) (ws : W) (tr : List W),
    (alignLevels pol eps us iters L st ws tr).1.levels = st.levels := by
  intro L
  induction L with
  | nil => intro st ws tr; rfl
  | cons lev rest ih =>
    intro st ws tr
    rw [alignLevels_cons]
    exact (ih _ _ _).trans (alignLevel_pres pol eps us iters lev st ws tr).1

lemma alignLevels_last_level (pol : Policy W P) (eps : ℚ) (us : Bool) (iters : ℕ) :
    ∀ (L : List ℕ) (lev : ℕ) (st : EngState) (ws : W) (tr : List W),
    L.getLast? = some lev →
    (alignLevels pol eps us iters L st ws tr).1.level =
      (max 0 (min (lev : ℤ) ((st.levels : ℤ) - 1))).toNat := by
  intro L
  induction L with
  | nil => intro lev st ws tr h; simp at h
  | cons a rest ih =>
    intro lev st ws tr h
    cases rest with
    | nil =>
      simp only [List.getLast?_singleton, Option.some_inj] at h
      subst h
      rw [alignLevels_cons]
      exact (alignLevel_pres pol eps us iters a st ws tr).2
    | cons b xs =>
      rw [List.getLast?_cons_cons] at h
      rw [alignLevels_cons]
      rw [ih lev _ _ _ h]
      rw [(alignLevel_pres pol eps us iters a st ws tr).1]

end ImageAlign

namespace ImageAlign

variable {W P : Type}

/-! ### Test collaborators used to exhibit concrete behaviour -/

/-- A recording collaborator on warps that are lists of level indices:
every step is accepted (one constraint, zero summed error, zero delta
norm) and `applyStep` appends the level at which the step was computed.
Used to exhibit the visit order of the alignment loop at concrete
inputs. -/
def polRec : Policy (List ℕ) ℕ where
  alignImpl lev _ := { delta := lev, sumErrors := 0, numConstraints := 1 }
  applyStep w s := w ++ [s.delta]
  scaled _ w := w
  norm _ := 0

/-- A degenerate collaborator whose every step reports zero constraints. -/
def polZero : Policy Unit Unit where
  alignImpl _ _ := { delta := (), sumErrors := 1, numConstraints := 0 }
  applyStep w _ := w
  scaled _ w := w
  norm _ := 0

/-- A collaborator whose steps always report the same summed error `1`
over one constraint, so that every accepted step leaves the mean error
unchanged at `1`. -/
def polConst : Policy Unit Unit where
  alignImpl _ _ := { delta := (), sumErrors := 1, numConstraints := 1 }
  applyStep w _ := w
  scaled _ w := w
  norm _ := 1

/-! ### Claims -/

/-- Claim C8: `isInImage` applies the half-pixel offset before truncation
(`x = floor(p.x - 0.5)`, `y = floor(p.y - 0.5)`) and returns `true`
exactly when the floored adjusted coordinates keep at least `r` pixels
of margin to every image edge; in particular the point `(0.4, 0.4)` in a
`10x10` image with border `0` is rejected and `(5, 5)` with border `2`
is accepted. -/
theorem c8_isInImage_halfpixel_border (p : ℚ × ℚ) (width height r : ℤ) :
    (isInImage p width height r = true ↔
      (r ≤ ⌊p.1 - (1 : ℚ) / 2⌋ ∧ r ≤ ⌊p.2 - (1 : ℚ) / 2⌋ ∧
       ⌊p.1 - (1 : ℚ) / 2⌋ < width - r ∧ ⌊p.2 - (1 : ℚ) / 2⌋ < height - r)) ∧
    isInImage (2/5, 2/5) 10 10 0 = false ∧
    isInImage (5, 5) 10 10 2 = true := by
  refine ⟨?_, ?_, ?_⟩
  · simp [isInImage, ge_iff_le, and_assoc]
  · have h1 : ⌊(2 : ℚ)/5 - 2⁻¹⌋ = -1 := by norm_num
    norm_num [isInImage, h1]
  · have h1 : ⌊(5 : ℚ) - 2⁻¹⌋ = 4 := by norm_num
    norm_num [isInImage, h1]

/-- Claim C9: `setLevel` clamps the requested level into
`[0, numLevels()-1]` before storing it and resets the last error to the
sentinel (modelled as `none`); both `prepare` overloads end with
`setLevel(0)`, so after `prepare` the active level is `0` and the last
error is the sentinel. -/
theorem c9_setLevel_clamps_and_resets (st : EngState) (l : ℤ)
    (maxT maxTgt : ℕ) (req : ℤ) {Img : Type} (target : ImagePyramid Img) :
    (setLevel st l).error = none ∧
    ((setLevel st l).level : ℤ) = max 0 (min l ((st.levels : ℤ) - 1)) ∧
    (setLevel st l).level ≤ st.levels - 1 ∧
    (0 ≤ l → l ≤ (st.levels : ℤ) - 1 → ((setLevel st l).level : ℤ) = l) ∧
    (prepare1 maxT maxTgt req).level = 0 ∧
    (prepare1 maxT maxTgt req).error = none ∧
    (prepare2 maxT target req).1.level = 0 ∧
    (prepare2 maxT target req).1.error = none := by
  refine ⟨rfl, ?_, ?_, ?_, ?_, rfl, ?_, rfl⟩
  · simp only [setLevel]; omega
  · simp only [setLevel]; omega
  · intro h1 h2; simp only [setLevel]; omega
  · simp only [prepare1, setLevel]; omega
  · simp only [prepare2, setLevel]; omega

/-- Claim C5: for the first `prepare` overload with valid inputs the
resulting level count equals `max(1, min(requestedLevels,
maxLevelsForImageSize(templateSize), maxLevelsForImageSize(targetSize)))`,
hence it lies in `[1, requestedLevels]` and never exceeds the level
count supported by either image size. -/
theorem c5_prepare_level_count (maxT maxTgt : ℕ) (req : ℤ)
    (h1 : 1 ≤ req) (h2 : 1 ≤ maxT) (h3 : 1 ≤ maxTgt) :
    ((prepare1 maxT maxTgt req).levels : ℤ) =
      max 1 (min req (min (maxT : ℤ) (maxTgt : ℤ))) ∧
    1 ≤ (prepare1 maxT maxTgt req).levels ∧
    ((prepare1 maxT maxTgt req).levels : ℤ) ≤ req ∧
    (prepare1 maxT maxTgt req).levels ≤ maxT ∧
    (prepare1 maxT maxTgt req).levels ≤ maxTgt := by
  refine ⟨?_, ?_, ?_, ?_, ?_⟩ <;> (simp only [prepare1, setLevel]; omega)

theorem c5_prepare_level_count_witness :
    ((prepare1 3 4 2).levels : ℤ) = max 1 (min 2 (min ((3 : ℕ) : ℤ) ((4 : ℕ) : ℤ))) ∧
    1 ≤ (prepare1 3 4 2).levels ∧
    ((prepare1 3 4 2).levels : ℤ) ≤ 2 ∧
    (prepare1 3 4 2).levels ≤ 3 ∧
    (prepare1 3 4 2).levels ≤ 4 :=
  c5_prepare_level_count 3 4 2 (by decide) (by decide) (by decide)

/-- Claim C10: the mean error `sumErrors / numConstraints` is computed by
an unconditional division whose error branch (division by zero, `none`
in the guarded embedding) is reached exactly when `numConstraints = 0`;
such a step is then rejected by the guard with engine state, warp and
trace unchanged, so `lastError` is never set from the divided value. -/
theorem c10_division_error_branch (pol : Policy W P) (eps : ℚ) (us : Bool)
    (lev iter : ℕ) (st : EngState) (ws : W) (tr : List W) (a : ℚ) (b : ℤ) :
    (divGuard a b = none ↔ b = 0) ∧
    ((pol.alignImpl lev ws).numConstraints = 0 →
      divGuard (pol.alignImpl lev ws).sumErrors (pol.alignImpl lev ws).numConstraints = none ∧
      alignStep pol eps us lev iter st ws tr = (st, ws, tr, false)) := by
  refine ⟨divGuard_eq_none_iff a b, fun h => ⟨(divGuard_eq_none_iff _ _).mpr h, ?_⟩⟩
  rw [alignStep_eq]
  have hd : decide (0 < (pol.alignImpl lev ws).numConstraints) = false := by
    simp [h]
  rw [hd]
  simp

theorem c10_division_error_branch_witness :
    divGuard (polZero.alignImpl 0 ()).sumErrors (polZero.alignImpl 0 ()).numConstraints = none ∧
    alignStep polZero 0 false 0 0 ⟨1, 0, none⟩ () [] = (⟨1, 0, none⟩, (), [], false) :=
  (c10_division_error_branch polZero 0 false 0 0 ⟨1, 0, none⟩ () [] 1 0).2 rfl

/-- Claim C1: a step inside `align` is accepted iff `numConstraints > 0`,
the error change `lastError - newError` is nonnegative (the sentinel
last error accepts any new error), and the iteration is the first of the
level or the delta norm is at least `eps`; on acceptance `applyStep`
updates the working warp, `lastError` becomes
`sumErrors / numConstraints`, and, when a step trace was supplied, the
accepted warp rescaled by `scaled(level)` is appended at the end of the
trace (so chronological order is preserved); on rejection nothing
changes. -/
theorem c1_step_acceptance (pol : Policy W P) (eps : ℚ) (us : Bool)
    (lev iter : ℕ) (st : EngState) (ws : W) (tr : List W) :
    ((alignStep pol eps us lev iter st ws tr).2.2.2 = true ↔
      (0 < (pol.alignImpl lev ws).numConstraints ∧
       (∀ e, st.error = some e →
         (pol.alignImpl lev ws).sumErrors / ((pol.alignImpl lev ws).numConstraints : ℚ) ≤ e) ∧
       (iter = 0 ∨ eps ≤ pol.norm (pol.alignImpl lev ws).delta))) ∧
    ((alignStep pol eps us lev iter st ws tr).2.2.2 = true →
      alignStep pol eps us lev iter st ws tr =
        ({ st with error := (some ((pol.alignImpl lev ws).sumErrors /
              ((pol.alignImpl lev ws).numConstraints : ℚ))) },
         pol.applyStep ws (pol.alignImpl lev ws),
         (if us then tr ++ [pol.scaled (lev : ℤ) (pol.applyStep ws (pol.alignImpl lev ws))]
          else tr),
         true)) ∧
    ((alignStep pol eps us lev iter st ws tr).2.2.2 = false →
      alignStep pol eps us lev iter st ws tr = (st, ws, tr, false)) := by
  rw [alignStep_eq]
  split
  case isTrue hc =>
    simp only [Bool.and_eq_true, Bool.or_eq_true, decide_eq_true_eq] at hc
    obtain ⟨⟨h1, h2⟩, h3⟩ := hc
    rw [divGuard_of_pos _ h1, errChangeNonneg_some_iff] at h2
    refine ⟨?_, ?_, ?_⟩
    · exact ⟨fun _ => ⟨h1, h2, h3⟩, fun _ => rfl⟩
    · intro _
      rw [divGuard_of_pos _ h1]
    · intro h; simp at h
  case isFalse hc =>
    refine ⟨?_, ?_, fun _ => rfl⟩
    · refine ⟨fun h => absurd h (by simp), fun hr => ?_⟩
      exfalso
      apply hc
      obtain ⟨h1, h2, h3⟩ := hr
      simp only [Bool.and_eq_true, Bool.or_eq_true, decide_eq_true_eq]
      refine ⟨⟨h1, ?_⟩, h3⟩
      rw [divGuard_of_pos _ h1, errChangeNonneg_some_iff]
      exact h2
    · intro h; simp at h

theorem c1_step_acceptance_witness :
    alignStep polRec 0 false 0 0 ⟨1, 0, none⟩ [] [] =
      ({ levels := 1, level := 0,
         error := (some ((polRec.alignImpl 0 []).sumErrors /
            ((polRec.alignImpl 0 []).numConstraints : ℚ))) },
       polRec.applyStep [] (polRec.alignImpl 0 []),
       (if false then ([] : List (List ℕ)) ++
          [polRec.scaled ((0 : ℕ) : ℤ) (polRec.applyStep [] (polRec.alignImpl 0 []))]
        else []),
       true) :=
  (c1_step_acceptance polRec 0 false 0 0 ⟨1, 0, none⟩ [] []).2.1 (by decide)

end ImageAlign

namespace ImageAlign

variable {W P : Type}

lemma alignStep_of_zero_constraints (pol : Policy W P) (eps : ℚ) (us : Bool)
    (lev iter : ℕ) (st : EngState) (ws : W) (tr : List W)
    (h : (pol.alignImpl lev ws).numConstraints = 0) :
    alignStep pol eps us lev iter st ws tr = (st, ws, tr, false) := by
  rw [alignStep_eq]
  have hd : decide (0 < (pol.alignImpl lev ws).numConstraints) = false := by simp [h]
  rw [hd]
  simp

/-- Claim C4: a step whose `SingleStepResult` reports `numConstraints = 0`
is never applied (engine state, working warp and trace are unchanged),
the iteration on the current level stops immediately without retrying,
and the outer loop proceeds to the remaining finer levels with the warp
estimate it currently holds. -/
theorem c4_zero_constraints_abandons_level (pol : Policy W P) (eps : ℚ) (us : Bool)
    (lev iter fuel : ℕ) (st : EngState) (ws : W) (tr : List W) :
    ((pol.alignImpl lev ws).numConstraints = 0 →
      alignStep pol eps us lev iter st ws tr = (st, ws, tr, false) ∧
      alignLoop pol eps us lev (fuel + 1) iter st ws tr = (st, ws, tr, 1)) ∧
    (∀ (iters : ℕ) (rest : List ℕ),
      (pol.alignImpl lev (pol.scaled 1 ws)).numConstraints = 0 → 1 ≤ iters →
      alignLevels pol eps us iters (lev :: rest) st ws tr =
        ((alignLevels pol eps us iters rest (setLevel st (lev : ℤ)) (pol.scaled 1 ws) tr).1,
         (alignLevels pol eps us iters rest (setLevel st (lev : ℤ)) (pol.scaled 1 ws) tr).2.1,
         (alignLevels pol eps us iters rest (setLevel st (lev : ℤ)) (pol.scaled 1 ws) tr).2.2.1,
         1 :: (alignLevels pol eps us iters rest
                (setLevel st (lev : ℤ)) (pol.scaled 1 ws) tr).2.2.2)) := by
  constructor
  · intro h
    have hstep := alignStep_of_zero_constraints pol eps us lev iter st ws tr h
    exact ⟨hstep, alignLoop_succ_of_rejected pol fuel hstep⟩
  · intro iters rest h hit
    cases iters with
    | zero => omega
    | succ k =>
      have hstep := alignStep_of_zero_constraints pol eps us lev 0
        (setLevel st (lev : ℤ)) (pol.scaled 1 ws) tr h
      have hloop := alignLoop_succ_of_rejected pol k hstep
      have hlevel : alignLevel pol eps us (k + 1) lev st ws tr =
          (setLevel st (lev : ℤ), pol.scaled 1 ws, tr, 1) := hloop
      rw [alignLevels_cons, hlevel]

theorem c4_zero_constraints_abandons_level_witness :
    (alignStep polZero 0 false 0 0 ⟨2, 1, none⟩ () [] = (⟨2, 1, none⟩, (), [], false) ∧
     alignLoop polZero 0 false 0 (4 + 1) 0 ⟨2, 1, none⟩ () [] = (⟨2, 1, none⟩, (), [], 1)) ∧
    alignLevels polZero 0 false 3 (1 :: [0]) ⟨2, 1, none⟩ () [] =
      ((alignLevels polZero 0 false 3 [0] (setLevel ⟨2, 1, none⟩ ((1 : ℕ) : ℤ))
          (polZero.scaled 1 ()) []).1,
       (alignLevels polZero 0 false 3 [0] (setLevel ⟨2, 1, none⟩ ((1 : ℕ) : ℤ))
          (polZero.scaled 1 ()) []).2.1,
       (alignLevels polZero 0 false 3 [0] (setLevel ⟨2, 1, none⟩ ((1 : ℕ) : ℤ))
          (polZero.scaled 1 ()) []).2.2.1,
       1 :: (alignLevels polZero 0 false 3 [0] (setLevel ⟨2, 1, none⟩ ((1 : ℕ) : ℤ))
          (polZero.scaled 1 ()) []).2.2.2) :=
  ⟨(c4_zero_constraints_abandons_level polZero 0 false 0 0 4 ⟨2, 1, none⟩ () []).1 rfl,
   (c4_zero_constraints_abandons_level polZero 0 false 1 0 0 ⟨2, 1, none⟩ () []).2 3 [0]
     rfl (by decide)⟩

/-- Claim C7 fails as stated: with a collaborator whose steps always
report summed error `1` over one constraint, the iteration at index `1`
of the level is accepted (`errorChange = 0 ≥ 0`) yet `lastError` stays
at `1`, so the iteration neither strictly improves the estimate nor
terminates the refinement of the level; inside a full `align` run with
budget `3` all three iterations are attempted and accepted. -/
theorem c7_counterexample_equal_error_accepted :
    (alignStep polConst 0 false 0 1 ⟨1, 0, some 1⟩ () []).2.2.2 = true ∧
    (alignStep polConst 0 false 0 1 ⟨1, 0, some 1⟩ () []).1.error = some 1 ∧
    align polConst ⟨1, 0, none⟩ () 3 0 false [] = (⟨1, 0, some 1⟩, (), [], [3]) := by
  refine ⟨?_, ?_, ?_⟩
  · rw [alignStep_eq]
    norm_num [polConst, divGuard, errChangeNonneg]
  · rw [alignStep_eq]
    norm_num [polConst, divGuard, errChangeNonneg]
  · norm_num [align, alignLevels, alignLevel, alignLoop, alignStep, setLevel,
      polConst, divGuard, errChangeNonneg, Int.tdiv]

/-- Claim C7, amended: no step is ever retried — a rejected step ends the
refinement of the current level at once, with engine state, warp and
trace unchanged — and every accepted iteration weakly improves the
estimate: the new `lastError` is at most the previous one whenever a
previous one exists (the code accepts on `errorChange >= 0`, so an
accepted step may keep `lastError` unchanged). -/
theorem c7_no_retries_weak_improvement (pol : Policy W P) (eps : ℚ) (us : Bool)
    (lev iter fuel : ℕ) (st : EngState) (ws : W) (tr : List W) :
    ((alignStep pol eps us lev iter st ws tr).2.2.2 = true →
      ∀ e, st.error = some e →
        (alignStep pol eps us lev iter st ws tr).1.error =
          some ((pol.alignImpl lev ws).sumErrors /
            ((pol.alignImpl lev ws).numConstraints : ℚ)) ∧
        (pol.alignImpl lev ws).sumErrors / ((pol.alignImpl lev ws).numConstraints : ℚ) ≤ e) ∧
    ((alignStep pol eps us lev iter st ws tr).2.2.2 = false →
      alignLoop pol eps us lev (fuel + 1) iter st ws tr = (st, ws, tr, 1) ∧
      alignStep pol eps us lev iter st ws tr = (st, ws, tr, false)) := by
  constructor
  · rw [alignStep_eq]
    split
    case isTrue hc =>
      simp only [Bool.and_eq_true, Bool.or_eq_true, decide_eq_true_eq] at hc
      obtain ⟨⟨h1, h2⟩, _⟩ := hc
      rw [divGuard_of_pos _ h1, errChangeNonneg_some_iff] at h2
      intro _ e he
      exact ⟨by rw [divGuard_of_pos _ h1], h2 e he⟩
    case isFalse hc =>
      intro h
      simp at h
  · intro h
    rcases alignStep_cases pol eps us lev iter st ws tr with h2 | h2
    · rw [h2] at h; cases h
    · exact ⟨alignLoop_succ_of_rejected pol fuel h2, h2⟩

theorem c7_no_retries_weak_improvement_witness :
    alignLoop polConst 2 false 0 (3 + 1) 1 ⟨1, 0, some 1⟩ () [] =
      (⟨1, 0, some 1⟩, (), [], 1) ∧
    alignStep polConst 2 false 0 1 ⟨1, 0, some 1⟩ () [] = (⟨1, 0, some 1⟩, (), [], false) :=
  (c7_no_retries_weak_improvement polConst 2 false 0 1 3 ⟨1, 0, some 1⟩ () []).2
    (by rw [alignStep_eq]; norm_num [polConst, divGuard, errChangeNonneg])

lemma prepare2_eq {Img : Type} (maxT : ℕ) (target : ImagePyramid Img) (req : ℤ) :
    prepare2 maxT target req =
      (setLevel { levels := (max 1 (min req (min (maxT : ℤ) (target.numLevels : ℤ)))).toNat,
                  level := 0, error := none } 0,
       if target.numLevels > (max 1 (min req (min (maxT : ℤ) (target.numLevels : ℤ)))).toNat
       then target.slice 0 ((max 1 (min req (min (maxT : ℤ) (target.numLevels : ℤ)))).toNat)
       else target) := rfl

/-- Claim C6: for the second `prepare` overload with a pre-built target
pyramid of at least one level, the engine reuses the pyramid directly
when its level count equals the determined level count (which never
exceeds it), and takes the prefix slice `0 .. levels-1` when the
supplied pyramid has more levels than needed; in the sliced case the
resulting level count is the determined (smaller) count — equal to the
requested count when that is feasible — and every target image accessor
returns the same pixel data as indexing the original pyramid. -/
theorem c6_prepare_prebuilt_pyramid {Img : Type} (target : ImagePyramid Img)
    (maxT : ℕ) (req : ℤ) (ht : 1 ≤ target.numLevels) :
    ((prepare2 maxT target req).1.levels ≤ target.numLevels) ∧
    (target.numLevels = (prepare2 maxT target req).1.levels →
      (prepare2 maxT target req).2 = target) ∧
    (target.numLevels > (prepare2 maxT target req).1.levels →
      (prepare2 maxT target req).2 =
        target.slice 0 ((prepare2 maxT target req).1.levels) ∧
      (prepare2 maxT target req).2.numLevels = (prepare2 maxT target req).1.levels) ∧
    (∀ i, i < (prepare2 maxT target req).1.levels →
      ((prepare2 maxT target req).2).getImg i = target.getImg i) ∧
    (1 ≤ req → req ≤ (maxT : ℤ) → req < (target.numLevels : ℤ) →
      ((prepare2 maxT target req).1.levels : ℤ) = req) := by
  rw [prepare2_eq]
  simp only [ImagePyramid.numLevels] at ht ⊢
  have hlev : (setLevel { levels := (max 1 (min req (min (maxT : ℤ)
      ((target.imgs.length : ℕ) : ℤ)))).toNat, level := 0, error := none } 0).levels =
      (max 1 (min req (min (maxT : ℤ) ((target.imgs.length : ℕ) : ℤ)))).toNat := rfl
  refine ⟨?_, ?_, ?_, ?_, ?_⟩
  · simp only [hlev]
    omega
  · intro heq
    rw [if_neg]
    omega
  · intro hgt
    simp only [hlev] at hgt
    rw [if_pos hgt]
    refine ⟨rfl, ?_⟩
    simp only [ImagePyramid.slice, ImagePyramid.numLevels, List.drop_zero, List.length_take]
    omega
  · intro i hi
    simp only [hlev] at hi
    by_cases hgt : target.imgs.length > (max 1 (min req (min (maxT : ℤ)
        ((target.imgs.length : ℕ) : ℤ)))).toNat
    · rw [if_pos hgt]
      simp only [ImagePyramid.slice, ImagePyramid.getImg, List.drop_zero]
      rw [List.getElem?_take]
      rw [if_pos hi]
    · rw [if_neg hgt]
  · intro hr1 hr2 hr3
    simp only [hlev]
    omega

theorem c6_prepare_prebuilt_pyramid_witness :
    (prepare2 9 (⟨[10, 20, 30, 40, 50]⟩ : ImagePyramid ℕ) 3).2 =
      ImagePyramid.slice ⟨[10, 20, 30, 40, 50]⟩ 0
        ((prepare2 9 (⟨[10, 20, 30, 40, 50]⟩ : ImagePyramid ℕ) 3).1.levels) ∧
    (prepare2 9 (⟨[10, 20, 30, 40, 50]⟩ : ImagePyramid ℕ) 3).2.numLevels =
      (prepare2 9 (⟨[10, 20, 30, 40, 50]⟩ : ImagePyramid ℕ) 3).1.levels ∧
    ((prepare2 9 (⟨[10, 20, 30, 40, 50]⟩ : ImagePyramid ℕ) 3).1.levels : ℤ) = 3 :=
  ⟨((c6_prepare_prebuilt_pyramid ⟨[10, 20, 30, 40, 50]⟩ 9 3 (by decide)).2.2.1
      (by decide)).1,
   ((c6_prepare_prebuilt_pyramid ⟨[10, 20, 30, 40, 50]⟩ 9 3 (by decide)).2.2.1
      (by decide)).2,
   (c6_prepare_prebuilt_pyramid ⟨[10, 20, 30, 40, 50]⟩ 9 3 (by decide)).2.2.2.2
     (by decide) (by decide) (by decide)⟩

end ImageAlign

namespace ImageAlign

variable {W P : Type}

/-- Claim C3: the per-level iteration budget is
`maxIterations / numLevels()` with C++ truncating integer division, no
level ever attempts more steps than that, the remainder is not
distributed (with `3` levels and `maxIterations = 7` every level
attempts exactly `2` steps), and with `maxIterations = numLevels` the
budget is exactly `1`, so no level ever attempts a second step. -/
theorem c3_iteration_budget (pol : Policy W P) (st : EngState) (w : W)
    (maxIt : ℤ) (eps : ℚ) (us : Bool) (tr0 : List W) :
    (align pol st w maxIt eps us tr0).2.2.2.length = st.levels ∧
    (∀ c ∈ (align pol st w maxIt eps us tr0).2.2.2,
      c ≤ (Int.tdiv maxIt (st.levels : ℤ)).toNat) ∧
    (1 ≤ st.levels → maxIt = (st.levels : ℤ) →
      (Int.tdiv maxIt (st.levels : ℤ)).toNat = 1 ∧
      ∀ c ∈ (align pol st w maxIt eps us tr0).2.2.2, c ≤ 1) ∧
    (align polRec ⟨3, 0, none⟩ [] 7 0 false []).2.2.2 = [2, 2, 2] := by
  have h := alignLevels_counts pol eps us ((Int.tdiv maxIt (st.levels : ℤ)).toNat)
    ((List.range st.levels).reverse) st (pol.scaled (-(st.levels : ℤ)) w) tr0
  refine ⟨?_, ?_, ?_, ?_⟩
  · show (alignLevels pol eps us ((Int.tdiv maxIt (st.levels : ℤ)).toNat)
      ((List.range st.levels).reverse) st (pol.scaled (-(st.levels : ℤ)) w) tr0).2.2.2.length
      = st.levels
    rw [h.1, List.length_reverse, List.length_range]
  · exact h.2
  · intro hn hm
    have hne : (st.levels : ℤ) ≠ 0 := by
      simp only [ne_eq, Int.natCast_eq_zero]
      omega
    have h1 : (Int.tdiv maxIt (st.levels : ℤ)).toNat = 1 := by
      rw [hm, Int.tdiv_self hne]
      rfl
    refine ⟨h1, ?_⟩
    intro c hc
    have := h.2 c hc
    omega
  · norm_num [align, alignLevels, alignLevel, alignLoop, alignStep, setLevel,
      polRec, divGuard, errChangeNonneg, Int.tdiv]

theorem c3_iteration_budget_witness :
    (align polRec ⟨2, 0, none⟩ [] 2 0 false []).2.2.2.length = 2 ∧
    (Int.tdiv 2 ((2 : ℕ) : ℤ)).toNat = 1 ∧
    ∀ c ∈ (align polRec ⟨2, 0, none⟩ [] 2 0 false []).2.2.2, c ≤ 1 :=
  ⟨(c3_iteration_budget polRec ⟨2, 0, none⟩ [] 2 0 false []).1,
   ((c3_iteration_budget polRec ⟨2, 0, none⟩ [] 2 0 false []).2.2.1
     (by decide) (by decide)).1,
   ((c3_iteration_budget polRec ⟨2, 0, none⟩ [] 2 0 false []).2.2.1
     (by decide) (by decide)).2⟩

end ImageAlign

namespace ImageAlign

variable {W P : Type}

/-! ### Warp-offset instrumentation for the rescaling accounting -/

lemma alignStep_warp_offset {α : Type} (pol : Policy (ℤ × α) P)
    (hap : ∀ w s, (pol.applyStep w s).1 = w.1) (eps : ℚ) (us : Bool)
    (lev iter : ℕ) (st : EngState) (ws : ℤ × α) (tr : List (ℤ × α)) :
    ((alignStep pol eps us lev iter st ws tr).2.1).1 = ws.1 := by
  rw [alignStep_eq]
  split
  · exact hap ws _
  · rfl

lemma alignLoop_warp_offset {α : Type} (pol : Policy (ℤ × α) P)
    (hap : ∀ w s, (pol.applyStep w s).1 = w.1) (eps : ℚ) (us : Bool) (lev : ℕ) :
    ∀ (fuel iter : ℕ) (st : EngState) (ws : ℤ × α) (tr : List (ℤ × α)),
    ((alignLoop pol eps us lev fuel iter st ws tr).2.1).1 = ws.1 := by
  intro fuel
  induction fuel with
  | zero => intro iter st ws tr; rfl
  | succ n ih =>
    intro iter st ws tr
    rcases alignStep_cases pol eps us lev iter st ws tr with h | h
    · rcases hs : alignStep pol eps us lev iter st ws tr with ⟨st2, ws2, tr2, d⟩
      have hoff := alignStep_warp_offset pol hap eps us lev iter st ws tr
      rw [hs] at h hoff
      simp only at h hoff
      subst h
      rw [alignLoop_succ_of_accepted pol n hs]
      exact (ih (iter + 1) st2 ws2 tr2).trans hoff
    · rw [alignLoop_succ_of_rejected pol n h]

lemma alignLevel_warp_offset {α : Type} (pol : Policy (ℤ × α) P)
    (hsc : pol.scaled = fun d w => (w.1 + d, w.2))
    (hap : ∀ w s, (pol.applyStep w s).1 = w.1) (eps : ℚ) (us : Bool)
    (iters lev : ℕ) (st : EngState) (ws : ℤ × α) (tr : List (ℤ × α)) :
    ((alignLevel pol eps us iters lev st ws tr).2.1).1 = ws.1 + 1 := by
  have h := alignLoop_warp_offset pol hap eps us lev iters 0
    (setLevel st (lev : ℤ)) (pol.scaled 1 ws) tr
  have h2 : (pol.scaled 1 ws).1 = ws.1 + 1 := by rw [hsc]
  exact h.trans h2

lemma alignLevels_warp_offset {α : Type} (pol : Policy (ℤ × α) P)
    (hsc : pol.scaled = fun d w => (w.1 + d, w.2))
    (hap : ∀ w s, (pol.applyStep w s).1 = w.1) (eps : ℚ) (us : Bool) (iters : ℕ) :
    ∀ (L : List ℕ) (st : EngState) (ws : ℤ × α) (tr : List (ℤ × α)),
    ((alignLevels pol eps us iters L st ws tr).2.1).1 = ws.1 + L.length := by
  intro L
  induction L with
  | nil => intro st ws tr; simp [alignLevels]
  | cons lev rest ih =>
    intro st ws tr
    rw [alignLevels_cons]
    have h1 := ih (alignLevel pol eps us iters lev st ws tr).1
      (alignLevel pol eps us iters lev st ws tr).2.1
      (alignLevel pol eps us iters lev st ws tr).2.2.1
    have h2 := alignLevel_warp_offset pol hsc hap eps us iters lev st ws tr
    simp only [List.length_cons]
    rw [h1, h2]
    omega

/-! ### Evaluation of the recording collaborator -/

lemma polRec_alignLevel (lev : ℕ) (st : EngState) (ws : List ℕ) (tr : List (List ℕ)) :
    alignLevel polRec 0 false 1 lev st ws tr =
      ({ levels := st.levels,
         level := (max 0 (min (lev : ℤ) ((st.levels : ℤ) - 1))).toNat,
         error := some 0 }, ws ++ [lev], tr, 1) := by
  norm_num [alignLevel, alignLoop, alignStep, setLevel, polRec, divGuard, errChangeNonneg]

lemma polRec_alignLevels :
    ∀ (L : List ℕ) (st : EngState) (ws : List ℕ) (tr : List (List ℕ)),
    (alignLevels polRec 0 false 1 L st ws tr).2.1 = ws ++ L := by
  intro L
  induction L with
  | nil => intro st ws tr; simp [alignLevels]
  | cons lev rest ih =>
    intro st ws tr
    rw [alignLevels_cons, polRec_alignLevel]
    simp only
    rw [ih]
    simp

end ImageAlign

namespace ImageAlign

variable {W P : Type}

/-- A collaborator on warps carrying an explicit parameterization offset
in their first component: `scaled d` adds `d` to the offset and
`applyStep` leaves it unchanged, mirroring a warp whose rescaling is
tracked symbolically. -/
def polOff : Policy (ℤ × Unit) Unit where
  alignImpl _ _ := { delta := (), sumErrors := 0, numConstraints := 1 }
  applyStep w _ := w
  scaled d w := (w.1 + d, w.2)
  norm _ := 0

/-- Claim C2: `align` first rescales the working warp by
`scaled(-numLevels)`, visits the levels strictly from coarsest
(`numLevels-1`) down to finest (`0`) rescaling by `scaled(+1)` on each
entry, and hands back a warp in level-0 parameterization: whenever the
warp type tracks its parameterization offset (each `scaled d` adding `d`
and `applyStep` preserving it), the offset of the returned warp equals
the offset of the input warp, for any number of levels; the recorded
visit order is exactly `numLevels-1, …, 0` (strictly decreasing, first
element `numLevels-1`, last element `0`), and the engine is left on the
finest level. -/
theorem c2_coarse_to_fine_rescaling :
    (∀ (α Q : Type) (pol : Policy (ℤ × α) Q),
      pol.scaled = (fun d w => (w.1 + d, w.2)) →
      (∀ w s, (pol.applyStep w s).1 = w.1) →
      ∀ (st : EngState) (w : ℤ × α) (maxIt : ℤ) (eps : ℚ) (us : Bool)
        (tr0 : List (ℤ × α)),
        ((align pol st w maxIt eps us tr0).2.1).1 = w.1) ∧
    (∀ n : ℕ, 1 ≤ n →
      (align polRec ⟨n, 0, none⟩ [] (n : ℤ) 0 false []).2.1 = (List.range n).reverse) ∧
    (∀ n : ℕ, List.Pairwise (fun a b => b < a) ((List.range n).reverse)) ∧
    (∀ n : ℕ, 1 ≤ n → ((List.range n).reverse).head? = some (n - 1) ∧
      ((List.range n).reverse).getLast? = some 0) ∧
    (∀ (pol : Policy W P) (st : EngState) (w : W) (maxIt : ℤ) (eps : ℚ)
      (us : Bool) (tr0 : List W), 1 ≤ st.levels →
      (align pol st w maxIt eps us tr0).1.level = 0 ∧
      (align pol st w maxIt eps us tr0).1.levels = st.levels) := by
  refine ⟨?_, ?_, ?_, ?_, ?_⟩
  · intro α Q pol hsc hap st w maxIt eps us tr0
    have h := alignLevels_warp_offset pol hsc hap eps us
      ((Int.tdiv maxIt (st.levels : ℤ)).toNat) ((List.range st.levels).reverse)
      st (pol.scaled (-(st.levels : ℤ)) w) tr0
    have h2 : (pol.scaled (-(st.levels : ℤ)) w).1 = w.1 - st.levels := by
      rw [hsc]
      simp
      omega
    show ((alignLevels pol eps us ((Int.tdiv maxIt (st.levels : ℤ)).toNat)
      ((List.range st.levels).reverse) st (pol.scaled (-(st.levels : ℤ)) w) tr0).2.1).1 = w.1
    rw [h, h2, List.length_reverse, List.length_range]
    omega
  · intro n hn
    have hne : ((n : ℕ) : ℤ) ≠ 0 := by
      simp only [ne_eq, Int.natCast_eq_zero]
      omega
    have hiters : (Int.tdiv (n : ℤ) (n : ℤ)).toNat = 1 := by
      rw [Int.tdiv_self hne]
      rfl
    show (alignLevels polRec 0 false
        ((Int.tdiv (n : ℤ) (((⟨n, 0, none⟩ : EngState).levels : ℕ) : ℤ)).toNat)
        ((List.range (⟨n, 0, none⟩ : EngState).levels).reverse) ⟨n, 0, none⟩
        (polRec.scaled (-(((⟨n, 0, none⟩ : EngState).levels : ℕ) : ℤ)) []) []).2.1 =
      (List.range n).reverse
    simp only
    rw [hiters, polRec_alignLevels]
    rfl
  · intro n
    rw [List.pairwise_reverse]
    exact List.pairwise_lt_range n
  · intro n hn
    obtain ⟨m, rfl⟩ : ∃ m, n = m + 1 := ⟨n - 1, by omega⟩
    constructor
    · rw [List.head?_reverse, List.range_succ, List.getLast?_concat]
      simp
    · rw [List.getLast?_reverse, List.range_succ_eq_map]
      rfl
  · intro pol st w maxIt eps us tr0 hn
    constructor
    · have hlast : ((List.range st.levels).reverse).getLast? = some 0 := by
        rw [List.getLast?_reverse]
        obtain ⟨m, hm⟩ : ∃ m, st.levels = m + 1 := ⟨st.levels - 1, by omega⟩
        rw [hm, List.range_succ_eq_map]
        rfl
      have h := alignLevels_last_level pol eps us
        ((Int.tdiv maxIt (st.levels : ℤ)).toNat) ((List.range st.levels).reverse) 0
        st (pol.scaled (-(st.levels : ℤ)) w) tr0 hlast
      show (alignLevels pol eps us ((Int.tdiv maxIt (st.levels : ℤ)).toNat)
        ((List.range st.levels).reverse) st (pol.scaled (-(st.levels : ℤ)) w) tr0).1.level = 0
      rw [h]
      omega
    · exact alignLevels_levels pol eps us _ _ _ _ _

theorem c2_coarse_to_fine_rescaling_witness :
    ((align polOff ⟨2, 0, none⟩ ((5 : ℤ), ()) 4 0 false []).2.1).1 = 5 ∧
    (align polRec ⟨3, 0, none⟩ [] ((3 : ℕ) : ℤ) 0 false []).2.1 = (List.range 3).reverse ∧
    (align polOff ⟨2, 0, none⟩ ((5 : ℤ), ()) 4 0 false []).1.level = 0 :=
  ⟨(c2_coarse_to_fine_rescaling (W := ℤ × Unit) (P := Unit)).1 Unit Unit polOff rfl
      (fun _ _ => rfl) ⟨2, 0, none⟩ ((5 : ℤ), ()) 4 0 false [],
   (c2_coarse_to_fine_rescaling (W := ℤ × Unit) (P := Unit)).2.1 3 (by decide),
   ((c2_coarse_to_fine_rescaling (W := ℤ × Unit) (P := Unit)).2.2.2.2 polOff
      ⟨2, 0, none⟩ ((5 : ℤ), ()) 4 0 false [] (by decide)).1⟩

end ImageAlign

namespace ImageAlign

theorem c8_isInImage_halfpixel_border_witness :
    isInImage (2/5, 2/5) 10 10 0 = false ∧
    isInImage (5, 5) 10 10 2 = true :=
  ⟨(c8_isInImage_halfpixel_border (0, 0) 1 1 0).2.1,
   (c8_isInImage_halfpixel_border (0, 0) 1 1 0).2.2⟩

theorem c9_setLevel_clamps_and_resets_witness :
    (setLevel ⟨3, 0, some 5⟩ 1).error = none ∧
    ((setLevel ⟨3, 0, some 5⟩ 1).level : ℤ) = 1 ∧
    (prepare1 4 4 2).level = 0 ∧
    (prepare1 4 4 2).error = none :=
  ⟨(c9_setLevel_clamps_and_resets ⟨3, 0, some 5⟩ 1 4 4 2
      (⟨[0]⟩ : ImagePyramid ℕ)).1,
   (c9_setLevel_clamps_and_resets ⟨3, 0, some 5⟩ 1 4 4 2
      (⟨[0]⟩ : ImagePyramid ℕ)).2.2.2.1 (by decide) (by decide),
   (c9_setLevel_clamps_and_resets ⟨3, 0, some 5⟩ 1 4 4 2
      (⟨[0]⟩ : ImagePyramid ℕ)).2.2.2.2.1,
   (c9_setLevel_clamps_and_resets ⟨3, 0, some 5⟩ 1 4 4 2
      (⟨[0]⟩ : ImagePyramid ℕ)).2.2.2.2.2.1⟩

end ImageAlign
